import Mathlib

/-!
Verification of the resilient summarization core of the pdf-summary-generator
repository: a shallow embedding of the error classifier
(`error-handler.service.ts`), the rate limiter (`rate-limiter.service.ts`),
the retry-aware summary generation (retry revision of `ai.service.ts`) and
the streaming-summary pipeline (`ai.service.ts`), together with theorems
settling the specified properties.
-/

namespace PdfSummary

/-! ## Error classifier (`error-handler.service.ts`) -/

/-- `ErrorCategory` enum from `error-handler.service.ts`. -/
inductive ErrorCategory
  | network
  | authentication
  | rateLimit
  | validation
  | server
  | client
  | unknown
  deriving DecidableEq, Repr

/-- The `AppError` record from `error-handler.service.ts`.  The `timestamp`,
`originalError` and `context` fields are unmodelled metadata (a locale date
string and untyped bags); no classified field depends on them. -/
structure AppError where
  message : String
  category : ErrorCategory
  statusCode : Option Int
  retryable : Bool
  deriving DecidableEq, Repr

/-- One step of `String.prototype.startsWith` on character lists. -/
def startsWithChars : List Char → List Char → Bool
  | _, [] => true
  | [], _ :: _ => false
  | h :: t, p :: ps => h = p && startsWithChars t ps

/-- `String.prototype.includes` on character lists: `pat` occurs contiguously
inside `hay`. -/
def includesChars : List Char → List Char → Bool
  | [], pat => pat.isEmpty
  | h :: t, pat => startsWithChars (h :: t) pat || includesChars t pat

/-- `message.toLowerCase().includes(pat)` as used by `processErrorInstance`;
the patterns in the source are already lowercase. -/
def lowerIncludes (msg pat : String) : Bool :=
  includesChars (msg.data.map Char.toLower) pat.data

/-- `ErrorHandlerService.processErrorInstance`: classify an `Error` instance
by case-insensitive substring patterns of its message. -/
def processErrorInstance (msg : String) : AppError :=
  if lowerIncludes msg "network" || lowerIncludes msg "connection" then
    { message := "Network connection error"
      category := .network
      statusCode := none
      retryable := true }
  else if lowerIncludes msg "auth" || lowerIncludes msg "unauthorized" ||
      lowerIncludes msg "api key" then
    { message := "Authentication error"
      category := .authentication
      statusCode := none
      retryable := false }
  else
    { message := if msg = "" then "An application error occurred" else msg
      category := .client
      statusCode := none
      retryable := false }

/-- JavaScript truthiness chain `error.status || error.statusCode || 500` used
by `processResponseError` (a present `0` is falsy and falls through). -/
def pickStatusCode (status statusCode : Option Int) : Int :=
  match status with
  | some s => if s = 0 then (match statusCode with
      | some c => if c = 0 then 500 else c
      | none => 500)
    else s
  | none =>
    match statusCode with
    | some c => if c = 0 then 500 else c
    | none => 500

/-- Message override in `processResponseError`: `error.message` when it is a
non-empty string, else the nested `error.error.message`, else the
category-derived default (empty strings are falsy in the source). -/
def overrideMessage (base : String) (msg nestedMsg : Option String) : String :=
  match msg with
  | some m => if m = "" then (match nestedMsg with
      | some nm => if nm = "" then base else nm
      | none => base)
    else m
  | none =>
    match nestedMsg with
    | some nm => if nm = "" then base else nm
    | none => base

/-- `ErrorHandlerService.processResponseError`: classify a response-like
failure by its resolved status code. -/
def processResponseError (status statusCode : Option Int)
    (msg nestedMsg : Option String) : AppError :=
  let sc := pickStatusCode status statusCode
  let catMsgRetry : ErrorCategory × String × Bool :=
    if sc ≠ 0 then
      if 400 ≤ sc ∧ sc < 500 then
        if sc = 401 ∨ sc = 403 then (.authentication, "Authentication failed", false)
        else if sc = 422 then (.validation, "Validation error", false)
        else if sc = 429 then (.rateLimit, "Rate limit exceeded", true)
        else (.client, "Client error (" ++ toString sc ++ ")", false)
      else if 500 ≤ sc then (.server, "Server error (" ++ toString sc ++ ")", true)
      else (.unknown, "API error", false)
    else (.unknown, "API error", false)
  { message := overrideMessage catMsgRetry.2.1 msg nestedMsg
    category := catMsgRetry.1
    statusCode := some sc
    retryable := catMsgRetry.2.2 }

/-- The failure shapes distinguished by `ErrorHandlerService.handleApiError`:
an `Error` instance (classified by its message), a response-like object whose
`status` or `statusCode` field is a number (classified by status), and any
other value (classified as unknown). -/
inductive FailureValue
  | errorInstance (message : String)
  | responseLike (status statusCode : Option Int) (message nestedMessage : Option String)
  | otherValue
  deriving DecidableEq, Repr

/-- The `AppError` produced for a value that is neither an `Error` instance
nor response-like. -/
def unknownAppError : AppError :=
  { message := "An unknown error occurred"
    category := .unknown
    statusCode := none
    retryable := false }

/-- `ErrorHandlerService.handleApiError`: dispatch on the failure shape.
A response-like object must actually expose a numeric `status` or
`statusCode`; otherwise it falls to the unknown branch. -/
def handleApiError : FailureValue → AppError
  | .errorInstance m => processErrorInstance m
  | .responseLike st sc m nm =>
    if st.isSome || sc.isSome then processResponseError st sc m nm
    else unknownAppError
  | .otherValue => unknownAppError

/-- `ErrorHandlerService.getBaseMessageForCategory`. -/
def getBaseMessageForCategory : ErrorCategory → String
  | .network => "Network connection error. Please check your internet connection."
  | .authentication => "Authentication failed. Please check your API key."
  | .rateLimit => "Rate limit exceeded. Please try again in a minute."
  | .validation => "The request contained invalid data."
  | .server => "The server encountered an error. Please try again later."
  | .client => "There was an error with your request."
  | .unknown => "An unexpected error occurred. Please try again."

/-- `ErrorHandlerService.getUserFriendlyMessage` on an `AppError` input: the
category base message, with the status code appended for truthy server-error
status codes. -/
def getUserFriendlyMessage (e : AppError) : String :=
  let base := getBaseMessageForCategory e.category
  if e.category = .server then
    match e.statusCode with
    | some sc => if sc ≠ 0 then base ++ " (" ++ toString sc ++ ")" else base
    | none => base
  else base

/-! ## Rate limiter (`rate-limiter.service.ts`)

Timestamps are milliseconds as `Nat`.  The asynchronous waits of the source
become explicit time arithmetic: a suspended call resumes at the computed
wake-up time.  The recursion of `checkRateLimit` is bounded by a fuel
parameter; `none` means the call is still waiting when the fuel runs out. -/

/-- `RateLimitConfig` from `rate-limiter.service.ts`. -/
structure RateLimitConfig where
  maxRequests : Nat
  windowMs : Nat
  delayMs : Option Nat
  deriving DecidableEq, Repr

/-- The built-in config for the `anthropic` provider key. -/
def anthropicConfig : RateLimitConfig := ⟨5, 60000, some 300⟩

/-- The built-in fallback config for unknown provider keys. -/
def defaultConfig : RateLimitConfig := ⟨10, 60000, none⟩

/-- The pruning step of `checkRateLimit`: keep only timestamps with
`now - timestamp < windowMs`. -/
def pruneLedger (cfg : RateLimitConfig) (now : Nat) (ledger : List Nat) : List Nat :=
  ledger.filter (fun t => decide (now - t < cfg.windowMs))

/-- The spacing step of `checkRateLimit`: when `delayMs` is configured (and
truthy) and the pruned ledger is non-empty, delay the admission so that it is
at least `delayMs` after the most recent timestamp (`Math.max` of the
ledger); the recorded timestamp is `Date.now()` after that delay. -/
def admissionTime (cfg : RateLimitConfig) (now : Nat) (pruned : List Nat) : Nat :=
  match cfg.delayMs with
  | some d =>
    if d ≠ 0 ∧ pruned.length ≠ 0 then
      let lastRequestTime := pruned.foldl Nat.max 0
      let timeSinceLastRequest := now - lastRequestTime
      if timeSinceLastRequest < d then now + (d - timeSinceLastRequest) else now
    else now
  | none => now

/-- `RateLimiterService.checkRateLimit` (browser path) for one provider key:
prune, then either admit (append the admission timestamp and return it) or
wait until the oldest timestamp leaves the window plus 100 ms and re-check.
When `maxRequests = 0` with an empty pruned ledger the source computes a
`NaN` wait (treated as 0 ms) and re-checks at once; the model re-checks at
the same instant. -/
def checkRateLimit (cfg : RateLimitConfig) : Nat → List Nat → Nat → Option (List Nat × Nat)
  | 0, _, _ => none
  | fuel + 1, ledger, now =>
    let pruned := pruneLedger cfg now ledger
    if cfg.maxRequests ≤ pruned.length then
      match pruned.head? with
      | some oldest =>
        checkRateLimit cfg fuel pruned (now + (oldest + cfg.windowMs - now) + 100)
      | none => checkRateLimit cfg fuel pruned now
    else
      let a := admissionTime cfg now pruned
      some (pruned ++ [a], a)

/-- A sequential trace of completed `checkRateLimit` calls for one provider:
each call starts `gap` ms after the previous admission and the admission
history is accumulated.  Result: final ledger, full admission history, time
of the last admission. -/
def runCalls (cfg : RateLimitConfig) (fuel : Nat) :
    List Nat → List Nat → List Nat → Nat → Option (List Nat × List Nat × Nat)
  | [], ledger, adms, now => some (ledger, adms, now)
  | gap :: gaps, ledger, adms, now =>
    match checkRateLimit cfg fuel ledger (now + gap) with
    | none => none
    | some (ledger2, a) => runCalls cfg fuel gaps ledger2 (adms ++ [a]) a

/-- `checkRateLimit` including the leading platform guard: outside the
browser it returns immediately with the ledger untouched and no admission
recorded (`none` in the second component). -/
def checkRateLimitPlatform (isBrowser : Bool) (cfg : RateLimitConfig)
    (fuel : Nat) (ledger : List Nat) (now : Nat) : Option (List Nat × Option Nat) :=
  if isBrowser then
    match checkRateLimit cfg fuel ledger now with
    | some (l, a) => some (l, some a)
    | none => none
  else some (ledger, none)

/-- `RateLimiterService.registerRequest`: it only logs.  The result is the
(unchanged) ledger paired with whether a log entry was emitted; outside the
browser it returns early without logging. -/
def registerRequest (isBrowser : Bool) (ledger : List Nat) : List Nat × Bool :=
  if isBrowser then (ledger, true) else (ledger, false)

/-- Number of admissions falling in the sliding half-open window `(T, T + W]`. -/
def windowCount (W : Nat) (adms : List Nat) (T : Nat) : Nat :=
  (adms.filter (fun t => decide (T < t ∧ t ≤ T + W))).length

/-- The invariant tying the current ledger to the full admission history:
the ledger is a sub-multiset of the history, every admission still inside
the window at `now` is in the ledger, all admissions lie in the past, and
every sliding window holds at most `maxRequests` admissions. -/
def RateInv (cfg : RateLimitConfig) (ledger adms : List Nat) (now : Nat) : Prop :=
  ledger.Sublist adms ∧
  (adms.filter (fun t => decide (now - t < cfg.windowMs))).Sublist ledger ∧
  (∀ t ∈ adms, t ≤ now) ∧
  (∀ T, windowCount cfg.windowMs adms T ≤ cfg.maxRequests)

/-! ## Summary generation and streaming (`ai.service.ts`) -/

/-- The nested payload of `SummaryResponse`. -/
structure SummaryResult where
  summary : List String
  deriving DecidableEq, Repr

/-- `SummaryResponse` from `ai.service.ts`. -/
structure SummaryResponse where
  result : SummaryResult
  deriving DecidableEq, Repr

/-- `StreamingSummaryState` from `ai.service.ts`; `currentBulletIndex` is an
`Int` because the empty/terminal state uses `-1`. -/
structure StreamingSummaryState where
  isComplete : Bool
  bulletPoints : List String
  currentBulletIndex : Int
  currentBulletText : String
  deriving DecidableEq, Repr

/-- `AiService.generateSummary` (streaming revision): the HTTP outcome is
mapped through unchanged, and `catchError` replaces every failure by a
successful response with an empty summary. -/
def generateSummary (httpResult : Except FailureValue SummaryResponse) :
    Except FailureValue SummaryResponse :=
  match httpResult with
  | .ok r => .ok r
  | .error _ => .ok ⟨⟨[]⟩⟩

/-- The per-character emissions of one bullet: the source splits the bullet
into characters and accumulates them starting from the empty string, emitting
each non-empty prefix of the bullet in order (an empty bullet emits
nothing). -/
def charPrefixes (s : String) : List String :=
  (List.range s.length).map (fun k => String.mk (s.data.take (k + 1)))

/-- One emitted snapshot while bullet `i` is being typed: earlier bullets
show their final text, bullet `i` shows the typed partial text, later
bullets are empty. -/
def bulletSnapshot (bullets : List String) (i : Nat) (partialText : String) :
    StreamingSummaryState :=
  { isComplete := false
    bulletPoints := bullets.mapIdx (fun j _ =>
      if j < i then bullets.getD j "" else if j = i then partialText else "")
    currentBulletIndex := (i : Int)
    currentBulletText := partialText }

/-- All snapshots emitted while bullet `i` is being typed. -/
def bulletStream (bullets : List String) (i : Nat) : List StreamingSummaryState :=
  (charPrefixes (bullets.getD i "")).map (bulletSnapshot bullets i)

/-- The single snapshot emitted when the summary has no bullets. -/
def emptyStreamState : StreamingSummaryState :=
  { isComplete := true
    bulletPoints := []
    currentBulletIndex := -1
    currentBulletText := "" }

/-- The final snapshot appended after the last bullet finishes. -/
def finalStreamState (bullets : List String) : StreamingSummaryState :=
  { isComplete := true
    bulletPoints := bullets
    currentBulletIndex := (bullets.length : Int) - 1
    currentBulletText := (bullets.getLast?).getD "" }

/-- The full emission sequence of `AiService.generateStreamingSummary` for a
given bullet list, with the timing collapsed: the delays and the 400 ms
inter-bullet pause emit no values of their own. -/
def streamSnapshots (bullets : List String) : List StreamingSummaryState :=
  if bullets.length = 0 then [emptyStreamState]
  else ((List.range bullets.length).flatMap (bulletStream bullets)) ++ [finalStreamState bullets]

/-- `AiService.generateStreamingSummary`: feed the (failure-swallowing)
`generateSummary` result into the typing simulation. -/
def generateStreamingSummary (httpResult : Except FailureValue SummaryResponse) :
    List StreamingSummaryState :=
  match generateSummary httpResult with
  | .ok resp => streamSnapshots resp.result.summary
  | .error _ => []

/-! ## Retry-aware summary generation (retry revision of `AiService`) -/

/-- `MAX_RETRIES` constant of the retry revision. -/
def MAX_RETRIES : Nat := 2

/-- The backoff delay computed by the retry handler for retry number
`retryCount` (1-indexed): `Math.pow(2, retryCount - 1) * 1000`. -/
def retryDelayMs (retryCount : Nat) : Nat := 2 ^ (retryCount - 1) * 1000

/-- Final outcome of the retry pipeline, with the number of performed
attempts and the backoff delays that were waited. -/
inductive SummaryOutcome
  | success (summary : List String) (attempts : Nat) (delays : List Nat)
  | failure (userMessage : String) (attempts : Nat) (delays : List Nat)
  deriving DecidableEq, Repr

/-- The retry loop of the retry revision of `AiService.generateSummary`:
`op n` is the outcome of the n-th invocation (1-indexed) of the underlying
request.  On failure with retries remaining, the error is classified; if
retryable, wait the backoff delay and re-attempt, otherwise (and when
retries are exhausted) `catchError` converts the error to a user-friendly
message. -/
def retryGo (op : Nat → Except FailureValue (List String)) :
    Nat → Nat → List Nat → SummaryOutcome
  | remaining, attemptNo, delays =>
    match op attemptNo with
    | .ok summary => .success summary attemptNo delays
    | .error e =>
      match remaining with
      | 0 => .failure (getUserFriendlyMessage (handleApiError e)) attemptNo delays
      | r + 1 =>
        if (handleApiError e).retryable then
          retryGo op r (attemptNo + 1) (delays ++ [retryDelayMs attemptNo])
        else .failure (getUserFriendlyMessage (handleApiError e)) attemptNo delays

/-- The retry revision of `AiService.generateSummary`, starting with
`MAX_RETRIES` retries available at attempt 1. -/
def generateSummaryWithRetry (op : Nat → Except FailureValue (List String)) : SummaryOutcome :=
  retryGo op MAX_RETRIES 1 []

/-! ## Spec-side definitions for refinement statements -/

/-- The status mapping claimed by the spec for statuses of at least 400:
401/403 to authentication (not retryable), 422 to validation (not
retryable), 429 to rate limit (retryable), other 4xx to client (not
retryable), at least 500 to server (retryable). -/
def claimedStatusMapping (sc : Int) : ErrorCategory × Bool :=
  if sc = 401 ∨ sc = 403 then (.authentication, false)
  else if sc = 422 then (.validation, false)
  else if sc = 429 then (.rateLimit, true)
  else if sc < 500 then (.client, false)
  else (.server, true)

/-- The amended message mapping for `Error`-instance failures: network or
connection messages are network (retryable); auth, unauthorized or api key
messages are authentication (not retryable); every other message, including
rate-limit messages, is client (not retryable). -/
def amendedMessageMapping (msg : String) : ErrorCategory × Bool :=
  if lowerIncludes msg "network" || lowerIncludes msg "connection" then (.network, true)
  else if lowerIncludes msg "auth" || lowerIncludes msg "unauthorized" ||
      lowerIncludes msg "api key" then (.authentication, false)
  else (.client, false)

/-- A concrete operation that fails on every attempt with a retryable
(server, status 500) error. -/
def alwaysServerError : Nat → Except FailureValue (List String) :=
  fun _ => .error (.responseLike (some 500) none none none)

/-- A concrete configuration with `maxRequests = 0`. -/
def zeroMaxConfig : RateLimitConfig := ⟨0, 1000, none⟩

/-! ## Theorems -/

/-- Indexing a `mapIdx` in bounds applies the function to the index and the
original element. -/
theorem getD_mapIdx_of_lt {α β : Type} (l : List α) (f : Nat → α → β) (j : Nat)
    (hj : j < l.length) (d : β) :
    (l.mapIdx f).getD j d = f j (l.get ⟨j, hj⟩) := by
  have hj2 : j < (l.mapIdx f).length := by
    rw [List.length_mapIdx]
    exact hj
  rw [List.getD_eq_getElem _ _ hj2]
  have hg := List.get_mapIdx l f j hj
  rw [List.get_eq_getElem, List.get_eq_getElem] at hg
  exact hg

/-- C6: for every non-empty segment list, every non-terminal emitted snapshot
with current index `i` has `isComplete = false`, all earlier bullet entries
equal to their final segment, all later entries empty, entry `i` equal to
`currentBulletText`, which is a prefix of segment `i`; and the final emitted
snapshot is complete with the bullet points equal to the input segments,
index `length - 1` and text equal to the last segment. -/
theorem streamSnapshots_invariants (bullets : List String) (hne : bullets ≠ []) :
    (∀ s ∈ streamSnapshots bullets, s.isComplete = false →
      ∃ i : Nat, s.currentBulletIndex = (i : Int) ∧ i < bullets.length ∧
        s.bulletPoints.length = bullets.length ∧
        (∀ j : Nat, j < i → s.bulletPoints.getD j "" = bullets.getD j "") ∧
        (∀ j : Nat, i < j → j < bullets.length → s.bulletPoints.getD j "" = "") ∧
        s.bulletPoints.getD i "" = s.currentBulletText ∧
        (∃ k : Nat, s.currentBulletText = String.mk ((bullets.getD i "").data.take k))) ∧
    (∃ fs, (streamSnapshots bullets).getLast? = some fs ∧
      fs.isComplete = true ∧ fs.bulletPoints = bullets ∧
      fs.currentBulletIndex = (bullets.length : Int) - 1 ∧
      fs.currentBulletText = bullets.getLast hne) := by
  have hlen : ¬ bullets.length = 0 := by
    intro h
    exact hne (List.length_eq_zero.1 h)
  constructor
  · intro s hs hsc
    rw [streamSnapshots, if_neg hlen] at hs
    rcases List.mem_append.1 hs with hmem | hmem
    · rcases List.mem_flatMap.1 hmem with ⟨i, hi, hsi⟩
      rcases List.mem_map.1 hsi with ⟨p, hp, rfl⟩
      rcases List.mem_map.1 hp with ⟨k, hk, rfl⟩
      have hilt : i < bullets.length := List.mem_range.1 hi
      refine ⟨i, rfl, hilt, ?_, ?_, ?_, ?_⟩
      · simp [bulletSnapshot, List.length_mapIdx]
      · intro j hj
        have hjlen : j < bullets.length := hj.trans hilt
        show (List.mapIdx _ bullets).getD j "" = bullets.getD j ""
        rw [getD_mapIdx_of_lt bullets _ j hjlen]
        simp [hj]
      · intro j hij hjlen
        show (List.mapIdx _ bullets).getD j "" = ""
        rw [getD_mapIdx_of_lt bullets _ j hjlen]
        rw [if_neg (by omega), if_neg (by omega)]
      · constructor
        · show (List.mapIdx _ bullets).getD i "" = _
          rw [getD_mapIdx_of_lt bullets _ i hilt]
          simp [bulletSnapshot]
        · exact ⟨k + 1, rfl⟩
    · have hfin : s = finalStreamState bullets := by simpa using hmem
      rw [hfin] at hsc
      simp [finalStreamState] at hsc
  · refine ⟨finalStreamState bullets, ?_, rfl, rfl, rfl, ?_⟩
    · rw [streamSnapshots, if_neg hlen]
      exact List.getLast?_concat _
    · simp [finalStreamState, List.getLast?_eq_getLast_of_ne_nil hne]

/-- C6 witness at the segment list consisting of `A` and `BC`. -/
theorem streamSnapshots_invariants_witness :
    ∃ fs, (streamSnapshots ["A", "BC"]).getLast? = some fs ∧
      fs.isComplete = true ∧ fs.bulletPoints = ["A", "BC"] ∧
      fs.currentBulletIndex = ((["A", "BC"] : List String).length : Int) - 1 ∧
      fs.currentBulletText = (["A", "BC"] : List String).getLast (by simp) :=
  (streamSnapshots_invariants ["A", "BC"] (by simp)).2

/-- C8: when the segment list given to the streaming simulation is empty, it
emits exactly one snapshot, equal to `isComplete = true`, `bulletPoints = []`,
`currentBulletIndex = -1`, `currentBulletText = ""`, and then ends. -/
theorem streamSnapshots_nil_single_complete :
    streamSnapshots [] =
      [{ isComplete := true, bulletPoints := [], currentBulletIndex := -1,
         currentBulletText := "" }] := rfl

/-- C9: `AiService.generateSummary` (streaming revision) never propagates an
error: every outcome is a successful response, and every failure of the
underlying HTTP request becomes a successful response with an empty summary
list, indistinguishable from a zero-bullet summary. -/
theorem generateSummary_never_propagates_error :
    (∀ h : Except FailureValue SummaryResponse, ∃ r, generateSummary h = Except.ok r) ∧
    (∀ e : FailureValue, generateSummary (Except.error e) = Except.ok ⟨⟨[]⟩⟩) := by
  constructor
  · intro h
    cases h with
    | ok r => exact ⟨r, rfl⟩
    | error e => exact ⟨⟨⟨[]⟩⟩, rfl⟩
  · intro e
    rfl

/-- C1 counterexample: on a failed remote call the streamed-summary pipeline
does enter the streaming phase and emits one terminal snapshot, and no
classified error message is surfaced; this contradicts the claim that no
snapshot is produced from a failed call. -/
theorem streaming_failure_counterexample :
    generateStreamingSummary (Except.error (FailureValue.errorInstance "network failure")) =
      [{ isComplete := true, bulletPoints := [], currentBulletIndex := -1,
         currentBulletText := "" }] ∧
    generateStreamingSummary (Except.error (FailureValue.errorInstance "network failure")) ≠
      [] := ⟨rfl, by decide⟩

/-- C1 amended: for every invocation in which the remote summary call fails,
the pipeline emits exactly one terminal snapshot with `isComplete = true`,
empty bullet points, index `-1` and empty text, and surfaces no error
message; a failure is indistinguishable from an empty summary. -/
theorem streaming_failure_emits_empty_complete (e : FailureValue) :
    generateStreamingSummary (Except.error e) = [emptyStreamState] := rfl

/-- C10: outside the browser platform, `checkRateLimit` returns immediately
with the ledger unchanged and no admission recorded (for any fuel, including
zero, so no pruning or waiting happens), and `registerRequest` is a no-op
that does not even log. -/
theorem checkRateLimit_non_browser (cfg : RateLimitConfig) (fuel : Nat)
    (ledger : List Nat) (now : Nat) :
    checkRateLimitPlatform false cfg fuel ledger now = some (ledger, none) ∧
    ∀ st : List Nat, registerRequest false st = (st, false) :=
  ⟨rfl, fun _ => rfl⟩

/-- C7 counterexample: with `maxRequests = 0 < 1` the acquire does not fail
fast with a configuration error; it keeps waiting and re-checking without
ever admitting, so it yields no outcome under any of the given fuel bounds
(the model has no error outcome because the source has no error path). -/
theorem zero_max_requests_counterexample :
    checkRateLimit zeroMaxConfig 1 [] 0 = none ∧
    checkRateLimit zeroMaxConfig 100 [] 0 = none ∧
    checkRateLimitPlatform true zeroMaxConfig 100 [] 0 = none := by
  refine ⟨rfl, by decide, by decide⟩

/-- C7 amended: the source contains no configuration-error check: with
`maxRequests = 0` every `checkRateLimit` call loops in the waiting branch
forever, admitting nothing and raising nothing, for every fuel bound,
ledger and start time. -/
theorem checkRateLimit_zero_max_never_admits (W : Nat) (d : Option Nat)
    (fuel : Nat) (ledger : List Nat) (now : Nat) :
    checkRateLimit ⟨0, W, d⟩ fuel ledger now = none := by
  induction fuel generalizing ledger now with
  | zero => rfl
  | succ n ih =>
    rw [checkRateLimit]
    simp only [Nat.zero_le, if_true]
    cases h : (pruneLedger ⟨0, W, d⟩ now ledger).head? with
    | none => simp [h, ih]
    | some oldest => simp [h, ih]

/-- C5 counterexample: an `Error` instance whose message contains
`rate limit` is classified as client and not retryable; the claim that such
messages yield the rate-limit category with `retryable = true` is false on
the code, whose message patterns have no rate-limit case. -/
theorem rate_limit_message_counterexample :
    (handleApiError (FailureValue.errorInstance "rate limit exceeded")).category =
      ErrorCategory.client ∧
    (handleApiError (FailureValue.errorInstance "rate limit exceeded")).retryable = false ∧
    ¬ (handleApiError (FailureValue.errorInstance "rate limit exceeded")).category =
      ErrorCategory.rateLimit := by
  refine ⟨rfl, rfl, by decide⟩

/-- C5 amended: for every `Error`-instance failure (textual message, no
status code), classification pattern-matches the message case-insensitively:
network or connection messages give network (retryable); auth, unauthorized
or api key messages give authentication (not retryable); every other
message, including those containing `rate limit`, gives client (not
retryable). -/
theorem errorInstance_message_mapping (m : String) :
    ((handleApiError (FailureValue.errorInstance m)).category,
      (handleApiError (FailureValue.errorInstance m)).retryable) =
      amendedMessageMapping m := by
  simp only [handleApiError, processErrorInstance, amendedMessageMapping]
  split_ifs <;> rfl

/-- C4: for every response-like failure exposing a numeric status, with
resolved status code at least 400, classification maps 401 and 403 to
authentication (not retryable), 422 to validation (not retryable), 429 to
rate limit (retryable), every other status below 500 to client (not
retryable) and every status of at least 500 to server (retryable), and
records the resolved status code on the classified error. -/
theorem handleApiError_status_mapping (status statusCode : Option Int)
    (msg nestedMsg : Option String)
    (hexp : status.isSome ∨ statusCode.isSome)
    (hsc : 400 ≤ pickStatusCode status statusCode) :
    ((handleApiError (FailureValue.responseLike status statusCode msg nestedMsg)).category,
      (handleApiError (FailureValue.responseLike status statusCode msg nestedMsg)).retryable) =
      claimedStatusMapping (pickStatusCode status statusCode) ∧
    (handleApiError (FailureValue.responseLike status statusCode msg nestedMsg)).statusCode =
      some (pickStatusCode status statusCode) := by
  have hor : (status.isSome || statusCode.isSome) = true := by
    rcases hexp with h | h <;> simp [h]
  simp only [handleApiError, hor, if_true]
  generalize hg : pickStatusCode status statusCode = sc at hsc ⊢
  simp only [processResponseError, claimedStatusMapping, hg]
  split_ifs
  all_goals first
    | exact ⟨rfl, rfl⟩
    | trivial
    | (exfalso; omega)

/-- C4 witness at status 429. -/
theorem handleApiError_status_mapping_witness :
    ((handleApiError (FailureValue.responseLike (some 429) none none none)).category,
      (handleApiError (FailureValue.responseLike (some 429) none none none)).retryable) =
      claimedStatusMapping (pickStatusCode (some 429) none) ∧
    (handleApiError (FailureValue.responseLike (some 429) none none none)).statusCode =
      some (pickStatusCode (some 429) none) :=
  handleApiError_status_mapping (some 429) none none none (Or.inl rfl) (by decide)

/-- C3: on an operation that fails on every attempt with a retryable
classified error, the retry-aware summary generation performs exactly 3
attempts (`maxRetries + 1` with `maxRetries = 2`), waits the backoff delays
1000 ms then 2000 ms, and settles as a failure. -/
theorem generateSummaryWithRetry_always_retryable_failure
    (op : Nat → Except FailureValue (List String))
    (hfail : ∀ n, ∃ e, op n = Except.error e ∧ (handleApiError e).retryable = true) :
    ∃ userMessage, generateSummaryWithRetry op =
      SummaryOutcome.failure userMessage 3 [1000, 2000] := by
  obtain ⟨e1, h1, r1⟩ := hfail 1
  obtain ⟨e2, h2, r2⟩ := hfail 2
  obtain ⟨e3, h3, r3⟩ := hfail 3
  refine ⟨getUserFriendlyMessage (handleApiError e3), ?_⟩
  simp [generateSummaryWithRetry, MAX_RETRIES, retryGo, h1, h2, h3, r1, r2, r3, retryDelayMs]

/-- C3 witness on an operation that always fails with a 500 server error. -/
theorem generateSummaryWithRetry_witness :
    ∃ userMessage, generateSummaryWithRetry alwaysServerError =
      SummaryOutcome.failure userMessage 3 [1000, 2000] :=
  generateSummaryWithRetry_always_retryable_failure alwaysServerError
    (fun _ => ⟨FailureValue.responseLike (some 500) none none none, rfl, by decide⟩)

/-- Advancing the clock shrinks the in-window filter. -/
theorem filter_window_mono (W : Nat) (adms : List Nat) {n n' : Nat} (h : n ≤ n') :
    (adms.filter (fun t => decide (n' - t < W))).Sublist
      (adms.filter (fun t => decide (n - t < W))) := by
  apply List.monotone_filter_right
  intro a ha
  simp only [decide_eq_true_eq] at ha ⊢
  omega

/-- Every admission still inside the window survives pruning of a ledger it
is recorded in. -/
theorem filter_window_sublist_pruned (cfg : RateLimitConfig) {ledger adms : List Nat}
    {now : Nat}
    (h2 : (adms.filter (fun t => decide (now - t < cfg.windowMs))).Sublist ledger) :
    (adms.filter (fun t => decide (now - t < cfg.windowMs))).Sublist
      (pruneLedger cfg now ledger) := by
  have hf := h2.filter (fun t => decide (now - t < cfg.windowMs))
  rw [List.filter_filter] at hf
  simpa [pruneLedger, Bool.and_self] using hf

/-- The recorded admission timestamp is never earlier than the check time. -/
theorem le_admissionTime (cfg : RateLimitConfig) (now : Nat) (pruned : List Nat) :
    now ≤ admissionTime cfg now pruned := by
  unfold admissionTime
  cases cfg.delayMs with
  | none => exact Nat.le_refl now
  | some d =>
    dsimp only
    split_ifs <;> omega

/-- The rate invariant is stable under advancing the clock. -/
theorem RateInv.advance {cfg : RateLimitConfig} {ledger adms : List Nat} {now now' : Nat}
    (h : RateInv cfg ledger adms now) (hle : now ≤ now') :
    RateInv cfg ledger adms now' := by
  obtain ⟨h1, h2, h3, h4⟩ := h
  exact ⟨h1, (filter_window_mono cfg.windowMs adms hle).trans h2,
    fun t ht => (h3 t ht).trans hle, h4⟩

/-- Window count after appending one admission. -/
theorem windowCount_append (W : Nat) (adms : List Nat) (a T : Nat) :
    windowCount W (adms ++ [a]) T =
      windowCount W adms T + (if T < a ∧ a ≤ T + W then 1 else 0) := by
  unfold windowCount
  rw [List.filter_append, List.length_append]
  split_ifs with h <;> simp [h]

/-- Any window that contains an admission recorded at time `a` holds at most
as many prior admissions as the ledger pruned at the admitting check. -/
theorem windowCount_le_pruned (cfg : RateLimitConfig) {ledger adms : List Nat}
    {now a T : Nat}
    (h2 : (adms.filter (fun t => decide (now - t < cfg.windowMs))).Sublist ledger)
    (hna : now ≤ a)
    (hT : T < a ∧ a ≤ T + cfg.windowMs) :
    windowCount cfg.windowMs adms T ≤ (pruneLedger cfg now ledger).length := by
  have hsub1 : (adms.filter (fun t => decide (T < t ∧ t ≤ T + cfg.windowMs))).Sublist
      (adms.filter (fun t => decide (now - t < cfg.windowMs))) := by
    apply List.monotone_filter_right
    intro t ht
    simp only [decide_eq_true_eq] at ht ⊢
    omega
  exact (hsub1.trans (filter_window_sublist_pruned cfg h2)).length_le

/-- The rate invariant survives pruning the ledger. -/
theorem RateInv.prune {cfg : RateLimitConfig} {ledger adms : List Nat} {now : Nat}
    (h : RateInv cfg ledger adms now) :
    RateInv cfg (pruneLedger cfg now ledger) adms now :=
  ⟨(List.filter_sublist _).trans h.1, filter_window_sublist_pruned cfg h.2.1,
    h.2.2.1, h.2.2.2⟩

/-- One completed `checkRateLimit` call preserves the rate invariant, the
admission being appended to the history at a time no earlier than the call
start. -/
theorem checkRateLimit_inv (cfg : RateLimitConfig) (fuel : Nat) :
    ∀ (ledger adms : List Nat) (now : Nat) (l2 : List Nat) (a : Nat),
      RateInv cfg ledger adms now →
      checkRateLimit cfg fuel ledger now = some (l2, a) →
      RateInv cfg l2 (adms ++ [a]) a ∧ now ≤ a := by
  induction fuel with
  | zero =>
    intro ledger adms now l2 a _ heq
    exact absurd heq (by rw [checkRateLimit]; simp)
  | succ n ih =>
    intro ledger adms now l2 a hinv heq
    rw [checkRateLimit] at heq
    by_cases hcap : cfg.maxRequests ≤ (pruneLedger cfg now ledger).length
    · rw [if_pos hcap] at heq
      cases hh : (pruneLedger cfg now ledger).head? with
      | some oldest =>
        rw [hh] at heq
        obtain ⟨hres, hle⟩ := ih _ adms _ l2 a
          (hinv.prune.advance (by omega)) heq
        exact ⟨hres, by omega⟩
      | none =>
        rw [hh] at heq
        exact ih _ adms _ l2 a hinv.prune heq
    · rw [if_neg hcap] at heq
      have hpair := Option.some.inj heq
      have hl2 : pruneLedger cfg now ledger ++
          [admissionTime cfg now (pruneLedger cfg now ledger)] = l2 :=
        congrArg Prod.fst hpair
      have ha : admissionTime cfg now (pruneLedger cfg now ledger) = a :=
        congrArg Prod.snd hpair
      subst hl2
      subst ha
      have hnow_le := le_admissionTime cfg now (pruneLedger cfg now ledger)
      refine ⟨⟨?_, ?_, ?_, ?_⟩, hnow_le⟩
      · exact ((List.filter_sublist _).trans hinv.1).append (List.Sublist.refl _)
      · rw [List.filter_append]
        refine List.Sublist.append ?_ (List.filter_sublist _)
        exact (filter_window_mono cfg.windowMs adms hnow_le).trans
          (filter_window_sublist_pruned cfg hinv.2.1)
      · intro t ht
        rcases List.mem_append.1 ht with hmem | hmem
        · exact (hinv.2.2.1 t hmem).trans hnow_le
        · rw [List.mem_singleton.1 hmem]
      · intro T
        rw [windowCount_append]
        split_ifs with hT
        · have hb := windowCount_le_pruned cfg hinv.2.1 hnow_le hT
          omega
        · have := hinv.2.2.2 T
          omega

/-- A sequential trace of completed calls preserves the rate invariant. -/
theorem runCalls_inv (cfg : RateLimitConfig) (fuel : Nat) :
    ∀ (gaps ledger adms : List Nat) (now : Nat) (l2 a2 : List Nat) (n2 : Nat),
      RateInv cfg ledger adms now →
      runCalls cfg fuel gaps ledger adms now = some (l2, a2, n2) →
      RateInv cfg l2 a2 n2 := by
  intro gaps
  induction gaps with
  | nil =>
    intro ledger adms now l2 a2 n2 hinv heq
    rw [runCalls] at heq
    have h1 := Option.some.inj heq
    have hl : ledger = l2 := congrArg Prod.fst h1
    have ha : adms = a2 := congrArg (fun x => x.2.1) h1
    have hn : now = n2 := congrArg (fun x => x.2.2) h1
    subst hl; subst ha; subst hn
    exact hinv
  | cons gap gaps ih =>
    intro ledger adms now l2 a2 n2 hinv heq
    rw [runCalls] at heq
    cases hc : checkRateLimit cfg fuel ledger (now + gap) with
    | none =>
      rw [hc] at heq
      exact absurd heq (by simp)
    | some res =>
      obtain ⟨ledger2, a⟩ := res
      rw [hc] at heq
      have h2 := checkRateLimit_inv cfg fuel ledger adms (now + gap) ledger2 a
        (hinv.advance (Nat.le_add_right now gap)) hc
      exact ih ledger2 (adms ++ [a]) a l2 a2 n2 h2.1 heq

/-- C2: after any sequence of completed `checkRateLimit` calls, no sliding
window of length `windowMs` contains more than `maxRequests` admissions; and
a call that finds the pruned ledger at capacity waits past the moment the
oldest timestamp leaves the window and re-evaluates before admitting. -/
theorem checkRateLimit_sliding_window (cfg : RateLimitConfig) :
    (∀ (gaps : List Nat) (fuel : Nat) (l2 a2 : List Nat) (n2 : Nat),
      runCalls cfg fuel gaps [] [] 0 = some (l2, a2, n2) →
      ∀ T, windowCount cfg.windowMs a2 T ≤ cfg.maxRequests) ∧
    (∀ (fuel : Nat) (ledger : List Nat) (now oldest : Nat) (rest : List Nat),
      pruneLedger cfg now ledger = oldest :: rest →
      cfg.maxRequests ≤ (oldest :: rest).length →
      checkRateLimit cfg (fuel + 1) ledger now =
        checkRateLimit cfg fuel (oldest :: rest)
          (now + (oldest + cfg.windowMs - now) + 100) ∧
      oldest + cfg.windowMs ≤ now + (oldest + cfg.windowMs - now) + 100) := by
  constructor
  · intro gaps fuel l2 a2 n2 heq T
    have h0 : RateInv cfg [] [] 0 :=
      ⟨List.Sublist.refl [], by simp, by simp, fun T => by
        simp [windowCount]⟩
    exact (runCalls_inv cfg fuel gaps [] [] 0 l2 a2 n2 h0 heq).2.2.2 T
  · intro fuel ledger now oldest rest hpr hcap
    constructor
    · rw [checkRateLimit, hpr, if_pos hcap]
      rfl
    · have hmem : oldest ∈ pruneLedger cfg now ledger := by
        rw [hpr]
        exact List.mem_cons_self _ _
      rw [pruneLedger, List.mem_filter] at hmem
      have hd := hmem.2
      simp only [decide_eq_true_eq] at hd
      omega

/-- C2 witness: a concrete trace with `maxRequests = 2`, `windowMs = 10` and
three back-to-back calls, the third of which had to wait. -/
theorem checkRateLimit_sliding_window_witness :
    windowCount 10 [0, 0, 110] 0 ≤ 2 :=
  (checkRateLimit_sliding_window ⟨2, 10, none⟩).1 [0, 0, 0] 5 [110] [0, 0, 110] 110
    (by decide) 0
end PdfSummary
